import Mathlib

/-!
Verification of the channel membership core of the fabric client SDK
(pkg/fab/channel/membership/membership.go).

The file shallowly embeds the Go source.  External collaborators that the
source calls but that are not part of the shown code (protobuf decoding,
PEM decoding, X.509 parsing, the BCCSP MSP object and the crypto suite,
the endpoint configuration sink) are collected in an environment record
Env whose fields are abstract functions; the control flow of the source
is translated faithfully over that environment.  Two pieces of the
repository are not under the shown sources and are modelled from the
specification, as marked in their doc comments: the MSPManager setup and
identity resolution (internal fabric msp package) and the certificate
date validator (pkg/client/common/verifier).
-/

namespace Membership

/-- Byte strings are modelled as lists of natural numbers. -/
abbrev Bytes := List Nat

/-- Structured error values mirroring the error construction sites of the
source: each constructor corresponds to one errors.New, errors.Errorf,
errors.Wrap or errors.WithMessage call site, wrapping constructors keep
the wrapped cause; external stands for an uninterpreted error produced by a
collaborator outside the shown code. -/
inductive Err where
  | mspTypeNotSupported (t : Int)
  | missingConfigPayload
  | unmarshalFabricConfigFailed (e : Err)
  | missingName
  | missingRootCerts
  | instantiateMSPFailed (e : Err)
  | configureMSPFailed (e : Err)
  | getIdentifierFailed (e : Err)
  | loadMSPsFailed (e : Err)
  | mspManagerSetupFailed (e : Err)
  | couldNotDeserializeSID (e : Err)
  | couldNotDecodePEM
  | certNotYetValid (serial : Nat)
  | certExpired (serial : Nat)
  | unknownMSP (id : String)
  | external (tag : Nat)
  deriving Repr, DecidableEq

/-- One raw MSP configuration entry, mirroring mb.MSPConfig: a provider
type tag and an uninterpreted payload. -/
structure MSPConfig where
  type_ : Int
  config : Bytes
  deriving Repr, DecidableEq

/-- Decoded payload of a fabric MSP configuration, mirroring the fields of
mb.FabricMSPConfig that the source reads.  The organizational unit
identifiers are reduced to their string identifiers since the source only
logs them. -/
structure FabricMSPConfig where
  name : String
  rootCerts : List Bytes
  intermediateCerts : List Bytes
  organizationalUnitIdentifiers : List String
  tlsRootCerts : List Bytes
  tlsIntermediateCerts : List Bytes
  deriving Repr, DecidableEq

/-- Decoded mb.SerializedIdentity: the trust domain tag and the credential
bytes expected to hold a PEM encoded certificate. -/
structure SerializedIdentity where
  mspid : String
  idBytes : Bytes
  deriving Repr, DecidableEq

/-- The fields of a parsed X.509 certificate that the shown code inspects:
the temporal validity window and the serial number used in log output.
Times are modelled as integers. -/
structure Cert where
  notBefore : Int
  notAfter : Int
  serialNumber : Nat
  deriving Repr, DecidableEq

/-- A decoded PEM block, mirroring pem.Block: type string, headers and the
enclosed DER bytes. -/
structure PemBlock where
  type_ : String
  headers : List (String × String)
  bytes : Bytes
  deriving Repr, DecidableEq

/-- Observable effects of assembly: the certificates forwarded to the TLS
certificate pool of the endpoint configuration, and the warnings emitted
through the logger by the date checks of addCertsToConfig. -/
structure BuildLog where
  pool : List Cert
  warnings : List Err
  deriving Repr, DecidableEq

/-- The empty effect log. -/
def BuildLog.empty : BuildLog := ⟨[], []⟩

/-- Modelled from the spec: the membership manager is a registry mapping
trust domain identifiers to constructed trust domains, with unique keys
(spec section 3, MembershipManager). -/
structure MSPManager (M : Type) where
  registry : List (String × M)
  deriving Repr, DecidableEq

/-- The manager with an empty registry, as produced by msp.NewMSPManager
before any setup. -/
def MSPManager.empty {M : Type} : MSPManager M := ⟨[]⟩

/-- The identityImpl structure of the source: it wraps the assembled
MSPManager. -/
structure IdentityImpl (M : Type) where
  mspManager : MSPManager M
  deriving Repr, DecidableEq

/-- The external collaborators of the membership core, abstracted as an
environment.  M is the type of constructed MSP objects, I the type of
deserialized identities.  pemDecodeShrinks records the property of
pem.Decode that the returned rest is a strict suffix of the input, which
the source relies on for its decode loop to terminate. -/
structure Env (M I : Type) where
  protoUnmarshalSID : Bytes → Except Err SerializedIdentity
  protoUnmarshalFabric : Bytes → Except Err FabricMSPConfig
  pemDecode : Bytes → Option (PemBlock × Bytes)
  pemDecodeShrinks : ∀ b blk rest, pemDecode b = some (blk, rest) → rest.length < b.length
  x509Parse : Bytes → Except Err Cert
  newBccspMsp : Except Err M
  mspSetup : M → MSPConfig → Except Err M
  getIdentifier : M → Except Err String
  getTLSRootCerts : M → List Bytes
  getTLSIntermediateCerts : M → List Bytes
  mspDeserialize : M → SerializedIdentity → Except Err I
  idValidate : I → Except Err Unit
  idVerify : I → Bytes → Bytes → Except Err Unit

variable {M I : Type}

/-- Modelled from the spec: verifier.ValidateCertificateDates from
pkg/client/common/verifier is not under the shown sources.  Spec section
4.1: it fails when now is before notBefore or after notAfter, with no
side effects, deterministic given now. -/
def validateCertificateDates (now : Int) (cert : Cert) : Except Err Unit :=
  if now < cert.notBefore then .error (.certNotYetValid cert.serialNumber)
  else if now > cert.notAfter then .error (.certExpired cert.serialNumber)
  else .ok ()

/-- Embedding of getFabricConfig: unmarshal the payload into a
FabricMSPConfig (wrapping a failure), then reject an empty name, then
reject empty root certificates. -/
def getFabricConfig (env : Env M I) (config : MSPConfig) : Except Err FabricMSPConfig :=
  match env.protoUnmarshalFabric config.config with
  | .error e => .error (.unmarshalFabricConfigFailed e)
  | .ok fabricConfig =>
    if fabricConfig.name = "" then .error .missingName
    else if fabricConfig.rootCerts.length = 0 then .error .missingRootCerts
    else .ok fabricConfig

/-- Embedding of the loop body of loadMSPs for one configuration entry:
reject a provider type other than msp.FABRIC (value 0), reject an empty
payload, decode the fabric config, instantiate a BCCSP MSP, configure it
with the raw config, and require its identifier to be retrievable. -/
def loadOneMSP (env : Env M I) (config : MSPConfig) : Except Err M :=
  if config.type_ ≠ 0 then .error (.mspTypeNotSupported config.type_)
  else if config.config.length = 0 then .error .missingConfigPayload
  else
    match getFabricConfig env config with
    | .error e => .error e
    | .ok _fabricConfig =>
      match env.newBccspMsp with
      | .error e => .error (.instantiateMSPFailed e)
      | .ok newMSP =>
        match env.mspSetup newMSP config with
        | .error e => .error (.configureMSPFailed e)
        | .ok configured =>
          match env.getIdentifier configured with
          | .error e => .error (.getIdentifierFailed e)
          | .ok _mspID => .ok configured

/-- Embedding of loadMSPs: process the configuration entries in order,
returning the first failure, or the list of constructed MSPs. -/
def loadMSPs (env : Env M I) : List MSPConfig → Except Err (List M)
  | [] => .ok []
  | config :: rest =>
    match loadOneMSP env config with
    | .error e => .error e
    | .ok m =>
      match loadMSPs env rest with
      | .error e => .error e
      | .ok ms => .ok (m :: ms)

/-- Insertion with Go map semantics: replace the value when the key is
already present, otherwise append the binding. -/
def insertKeyed (r : List (String × M)) (k : String) (v : M) : List (String × M) :=
  match r with
  | [] => [(k, v)]
  | (k0, v0) :: rest => if k0 = k then (k0, v) :: rest else (k0, v0) :: insertKeyed rest k v

/-- Lookup in the registry by key. -/
def lookupKeyed (r : List (String × M)) (k : String) : Option M :=
  match r with
  | [] => none
  | (k0, v0) :: rest => if k0 = k then some v0 else lookupKeyed rest k

/-- The registry obtained by inserting the given bindings in order. -/
def buildRegistry (pairs : List (String × M)) : List (String × M) :=
  pairs.foldl (fun r p => insertKeyed r p.1 p.2) []

/-- Retrieve the identifiers of a list of constructed MSPs, failing on the
first identifier retrieval failure. -/
def getIdentifiers (env : Env M I) : List M → Except Err (List String)
  | [] => .ok []
  | m :: rest =>
    match env.getIdentifier m with
    | .error e => .error e
    | .ok id_ =>
      match getIdentifiers env rest with
      | .error e => .error e
      | .ok ids => .ok (id_ :: ids)

/-- Modelled from the spec: Setup of the MSPManager from the internal
fabric msp package is not under the shown sources.  Spec sections 3 and
4.3: it keys every successfully built domain by its identifier into the
registry, whose keys are unique; an identifier retrieval failure fails
the setup. -/
def mspManagerSetup (env : Env M I) (msps : List M) : Except Err (MSPManager M) :=
  match getIdentifiers env msps with
  | .error e => .error e
  | .ok ids => .ok ⟨buildRegistry (ids.zip msps)⟩

/-- Embedding of addCertsToConfig: repeatedly PEM decode the byte string;
stop when it is exhausted or no block decodes; silently skip a block whose
type is not CERTIFICATE or that has headers, and a block whose bytes do
not parse as an X.509 certificate; for a parsed certificate, run the date
validator, log a warning (but only log) on failure, and forward the
certificate to the TLS certificate pool of the endpoint configuration in
every case.  The function never fails. -/
def addCertsToConfig (env : Env M I) (now : Int) (pemCerts : Bytes) : BuildLog :=
  if 0 < pemCerts.length then
    match hdec : env.pemDecode pemCerts with
    | none => BuildLog.empty
    | some (block, rest) =>
      if block.type_ ≠ "CERTIFICATE" ∨ block.headers ≠ [] then
        addCertsToConfig env now rest
      else
        match env.x509Parse block.bytes with
        | .error _ => addCertsToConfig env now rest
        | .ok cert =>
          let l := addCertsToConfig env now rest
          match validateCertificateDates now cert with
          | .error e => ⟨cert :: l.pool, e :: l.warnings⟩
          | .ok _ => ⟨cert :: l.pool, l.warnings⟩
  else BuildLog.empty
termination_by pemCerts.length
decreasing_by
  all_goals exact env.pemDecodeShrinks pemCerts block rest hdec

/-- Concatenation of effect logs, preserving order. -/
def logJoin (ls : List BuildLog) : BuildLog :=
  ⟨(ls.map BuildLog.pool).flatten, (ls.map BuildLog.warnings).flatten⟩

/-- The TLS certificate byte strings of one constructed MSP, roots first
then intermediates, in the order the source iterates them. -/
def mspTLSCerts (env : Env M I) (m : M) : List Bytes :=
  env.getTLSRootCerts m ++ env.getTLSIntermediateCerts m

/-- Embedding of the TLS registration loop of createMSPManager: for every
constructed MSP, run addCertsToConfig on each of its TLS root and
intermediate certificate byte strings. -/
def addAllCerts (env : Env M I) (now : Int) (msps : List M) : BuildLog :=
  logJoin (msps.map (fun m => logJoin ((mspTLSCerts env m).map (addCertsToConfig env now))))

/-- Embedding of createMSPManager, the assembly entry point: an empty
configuration list yields the fresh empty manager; otherwise load all
MSPs (a failure is wrapped and aborts), set up the manager (a failure is
wrapped and aborts), and only then walk the TLS certificates of the
loaded MSPs into the endpoint configuration pool.  The second component
records the effects actually performed on each path. -/
def createMSPManager (env : Env M I) (now : Int) (cfgMSPs : List MSPConfig) :
    Except Err (MSPManager M) × BuildLog :=
  if 0 < cfgMSPs.length then
    match loadMSPs env cfgMSPs with
    | .error e => (.error (.loadMSPsFailed e), BuildLog.empty)
    | .ok msps =>
      match mspManagerSetup env msps with
      | .error e => (.error (.mspManagerSetupFailed e), BuildLog.empty)
      | .ok mgr => (.ok mgr, addAllCerts env now msps)
  else (.ok MSPManager.empty, BuildLog.empty)

/-- Embedding of New: wrap a successfully created manager into the
identity implementation, propagating a creation failure. -/
def New (env : Env M I) (now : Int) (cfgMSPs : List MSPConfig) :
    Except Err (IdentityImpl M) × BuildLog :=
  match createMSPManager env now cfgMSPs with
  | (.error e, log) => (.error e, log)
  | (.ok m, log) => (.ok ⟨m⟩, log)

/-- Embedding of areCertDatesValid: unmarshal the serialized identity
(wrapping a failure), PEM decode its credential bytes (the rest is
discarded), parse the certificate, and run the date validator, returning
its error unchanged. -/
def areCertDatesValid (env : Env M I) (now : Int) (serializedID : Bytes) : Except Err Unit :=
  match env.protoUnmarshalSID serializedID with
  | .error e => .error (.couldNotDeserializeSID e)
  | .ok sID =>
    match env.pemDecode sID.idBytes with
    | none => .error .couldNotDecodePEM
    | some (bl, _) =>
      match env.x509Parse bl.bytes with
      | .error e => .error e
      | .ok cert =>
        match validateCertificateDates now cert with
        | .error e => .error e
        | .ok _ => .ok ()

/-- Modelled from the spec: DeserializeIdentity of the MSPManager from the
internal fabric msp package is not under the shown sources.  Spec section
4.3, resolution: extract the trust domain tag from the serialized
identity, look it up in the registry, fail with an unknown domain error
when absent, and otherwise deserialize through the owning domain. -/
def mspManagerDeserializeIdentity (env : Env M I) (mgr : MSPManager M) (serializedID : Bytes) :
    Except Err I :=
  match env.protoUnmarshalSID serializedID with
  | .error e => .error (.couldNotDeserializeSID e)
  | .ok s =>
    match lookupKeyed mgr.registry s.mspid with
    | none => .error (.unknownMSP s.mspid)
    | some m => env.mspDeserialize m s

/-- Embedding of Validate on identityImpl: first the certificate date
check (a failure is logged and returned), then deserialization through
the manager, then self validation of the deserialized identity. -/
def Validate (env : Env M I) (now : Int) (impl : IdentityImpl M) (serializedID : Bytes) :
    Except Err Unit :=
  match areCertDatesValid env now serializedID with
  | .error e => .error e
  | .ok _ =>
    match mspManagerDeserializeIdentity env impl.mspManager serializedID with
    | .error e => .error e
    | .ok id_ => env.idValidate id_

/-- Embedding of Verify on identityImpl: deserialization through the
manager, then signature verification on the deserialized identity.  No
date check appears in this path. -/
def Verify (env : Env M I) (impl : IdentityImpl M) (serializedID msg sig : Bytes) :
    Except Err Unit :=
  match mspManagerDeserializeIdentity env impl.mspManager serializedID with
  | .error e => .error e
  | .ok id_ => env.idVerify id_ msg sig

/-- A concrete fabric config decoder for test inputs: payload 1 and
payload 2 decode to configs that share the name Org1MSP (payload 1 also
carries one TLS root certificate), payload 4 decodes to a config with no
root certificates, payload 5 decodes to a config with the distinct name
Org5MSP, and every other payload fails to decode. -/
def toyUnmarshalFabric (b : Bytes) : Except Err FabricMSPConfig :=
  if b = [1] then .ok ⟨"Org1MSP", [[1]], [], [], [[7]], []⟩
  else if b = [2] then .ok ⟨"Org1MSP", [[2]], [], [], [], []⟩
  else if b = [4] then .ok ⟨"Org4MSP", [], [], [], [], []⟩
  else if b = [5] then .ok ⟨"Org5MSP", [[5]], [], [], [], []⟩
  else .error (.external 0)

/-- A concrete PEM decoder for test inputs: the byte strings 7 and 6 each
decode to a single CERTIFICATE block without headers and an empty rest,
everything else holds no block. -/
def toyPemDecode (b : Bytes) : Option (PemBlock × Bytes) :=
  if b = [7] then some (⟨"CERTIFICATE", [], [7]⟩, [])
  else if b = [6] then some (⟨"CERTIFICATE", [], [6]⟩, [])
  else none

/-- The concrete PEM decoder returns a strictly shorter rest. -/
theorem toyPemDecode_shrinks :
    ∀ b blk rest, toyPemDecode b = some (blk, rest) → rest.length < b.length := by
  intro b blk rest h
  unfold toyPemDecode at h
  split at h
  · next hb => cases h; simp [hb]
  · split at h
    · next hb => cases h; simp [hb]
    · simp at h

/-- A fully concrete environment over M equal to FabricMSPConfig and I
equal to Nat: block 7 parses to a certificate whose validity window ends
at time 10 (so it is expired at time 20), block 6 parses to a certificate
valid until time 100; serialized identity 9 is tagged Org1MSP and carries
the expiring certificate bytes, serialized identity 8 carries the valid
ones; MSP setup decodes the payload and the identifier is the decoded
name; deserialization and identity validation and verification always
succeed. -/
def toyEnv : Env FabricMSPConfig Nat where
  protoUnmarshalSID := fun b =>
    if b = [9] then .ok ⟨"Org1MSP", [7]⟩
    else if b = [8] then .ok ⟨"Org1MSP", [6]⟩
    else .error (.external 1)
  protoUnmarshalFabric := toyUnmarshalFabric
  pemDecode := toyPemDecode
  pemDecodeShrinks := toyPemDecode_shrinks
  x509Parse := fun b =>
    if b = [7] then .ok ⟨0, 10, 7⟩
    else if b = [6] then .ok ⟨0, 100, 6⟩
    else .error (.external 2)
  newBccspMsp := .ok ⟨"", [], [], [], [], []⟩
  mspSetup := fun _ c => toyUnmarshalFabric c.config
  getIdentifier := fun m => .ok m.name
  getTLSRootCerts := fun m => m.tlsRootCerts
  getTLSIntermediateCerts := fun m => m.tlsIntermediateCerts
  mspDeserialize := fun _ _ => .ok 0
  idValidate := fun _ => .ok ()
  idVerify := fun _ _ _ => .ok ()

/-- On an empty byte string the PEM decode loop does nothing. -/
theorem addCertsToConfig_nil (env : Env M I) (now : Int) :
    addCertsToConfig env now [] = BuildLog.empty := by
  rw [addCertsToConfig]
  simp

/-- One step of the PEM decode loop, for a byte string on which the
decoder finds a block. -/
theorem addCertsToConfig_step (env : Env M I) (now : Int) (pemCerts : Bytes)
    (block : PemBlock) (rest : Bytes) (hne : pemCerts ≠ [])
    (hdec : env.pemDecode pemCerts = some (block, rest)) :
    addCertsToConfig env now pemCerts =
      if block.type_ ≠ "CERTIFICATE" ∨ block.headers ≠ [] then
        addCertsToConfig env now rest
      else
        match env.x509Parse block.bytes with
        | .error _ => addCertsToConfig env now rest
        | .ok cert =>
          let l := addCertsToConfig env now rest
          match validateCertificateDates now cert with
          | .error e => ⟨cert :: l.pool, e :: l.warnings⟩
          | .ok _ => ⟨cert :: l.pool, l.warnings⟩ := by
  rw [addCertsToConfig]
  rw [if_pos (List.length_pos.mpr hne)]
  split
  · next h => rw [hdec] at h; cases h
  · next blk rst h =>
      rw [hdec] at h
      injection h with h2
      cases h2
      rfl

/-- Loading succeeds only with exactly one MSP per configuration entry. -/
theorem loadMSPs_ok_length (env : Env M I) :
    ∀ cfgs msps, loadMSPs env cfgs = .ok msps → msps.length = cfgs.length := by
  intro cfgs
  induction cfgs with
  | nil => intro msps h; cases h; rfl
  | cons c rest ih =>
      intro msps h
      unfold loadMSPs at h
      cases hc : loadOneMSP env c with
      | error e => rw [hc] at h; cases h
      | ok m =>
          rw [hc] at h
          cases hr : loadMSPs env rest with
          | error e => rw [hr] at h; cases h
          | ok ms =>
              rw [hr] at h
              cases h
              simp [ih ms hr]

/-- When a prefix of the configuration list loads and the next entry
fails, the whole load fails with exactly that failure. -/
theorem loadMSPs_append_firstfail (env : Env M I) :
    ∀ (l1 : List MSPConfig) (msps1 : List M) (c : MSPConfig) (l2 : List MSPConfig) (e : Err),
      loadMSPs env l1 = .ok msps1 → loadOneMSP env c = .error e →
      loadMSPs env (l1 ++ c :: l2) = .error e := by
  intro l1
  induction l1 with
  | nil =>
      intro msps1 c l2 e _ hc
      simp only [List.nil_append]
      unfold loadMSPs
      rw [hc]
  | cons a rest ih =>
      intro msps1 c l2 e h1 hc
      simp only [loadMSPs] at h1
      simp only [List.cons_append, loadMSPs, List.append_eq]
      cases ha : loadOneMSP env a with
      | error e0 => rw [ha] at h1; cases h1
      | ok m =>
          rw [ha] at h1
          simp only [ha]
          cases hr : loadMSPs env rest with
          | error e0 => rw [hr] at h1; cases h1
          | ok ms =>
              rw [hr] at h1
              rw [ih ms c l2 e hr hc]

/-- A configuration list that contains an entry of an unsupported
provider type never loads, whatever the other entries are. -/
theorem loadMSPs_unsupported_fails (env : Env M I) :
    ∀ (l1 : List MSPConfig) (c : MSPConfig) (l2 : List MSPConfig), c.type_ ≠ 0 →
      ∃ e, loadMSPs env (l1 ++ c :: l2) = .error e := by
  intro l1
  induction l1 with
  | nil =>
      intro c l2 hc
      refine ⟨.mspTypeNotSupported c.type_, ?_⟩
      simp only [List.nil_append, loadMSPs, loadOneMSP]
      rw [if_pos hc]
  | cons a rest ih =>
      intro c l2 hc
      obtain ⟨e, he⟩ := ih c l2 hc
      cases ha : loadOneMSP env a with
      | error e0 =>
          refine ⟨e0, ?_⟩
          simp only [List.cons_append, loadMSPs, List.append_eq]
          rw [ha]
      | ok m =>
          refine ⟨e, ?_⟩
          simp only [List.cons_append, loadMSPs, List.append_eq]
          rw [ha, he]

/-- The keys of a registry. -/
def keysOf (r : List (String × M)) : List String := r.map Prod.fst

/-- Keyed insertion leaves the keys unchanged when the key is present and
appends it otherwise. -/
theorem keysOf_insertKeyed (k : String) (v : M) :
    ∀ r : List (String × M),
      keysOf (insertKeyed r k v) = if k ∈ keysOf r then keysOf r else keysOf r ++ [k] := by
  intro r
  induction r with
  | nil => simp [insertKeyed, keysOf]
  | cons p rest ih =>
      obtain ⟨k0, v0⟩ := p
      by_cases hk : k0 = k
      · subst hk
        simp [insertKeyed, keysOf]
      · simp only [insertKeyed, if_neg hk, keysOf, List.map_cons, List.mem_cons]
        have hne : ¬ k = k0 := fun h => hk h.symm
        simp only [keysOf] at ih
        rw [ih]
        by_cases hm : k ∈ rest.map Prod.fst
        · simp [hm, hne]
        · simp [hm, hne]

/-- Keyed insertion keeps the size when the key is present and grows it by
one otherwise. -/
theorem length_insertKeyed (k : String) (v : M) :
    ∀ r : List (String × M),
      (insertKeyed r k v).length = if k ∈ keysOf r then r.length else r.length + 1 := by
  intro r
  induction r with
  | nil => simp [insertKeyed, keysOf]
  | cons p rest ih =>
      obtain ⟨k0, v0⟩ := p
      by_cases hk : k0 = k
      · subst hk
        simp [insertKeyed, keysOf]
      · have hne : ¬ k = k0 := fun h => hk h.symm
        simp only [insertKeyed, if_neg hk, List.length_cons, keysOf, List.map_cons,
          List.mem_cons]
        simp only [keysOf] at ih
        rw [ih]
        by_cases hm : k ∈ rest.map Prod.fst
        · simp [hm, hne]
        · simp [hm, hne]

/-- Folding keyed insertions grows the registry by at most the number of
inserted bindings. -/
theorem length_foldl_insert_le :
    ∀ (pairs : List (String × M)) (r : List (String × M)),
      (pairs.foldl (fun r p => insertKeyed r p.1 p.2) r).length ≤ r.length + pairs.length := by
  intro pairs
  induction pairs with
  | nil => intro r; simp
  | cons p ps ih =>
      intro r
      simp only [List.foldl_cons, List.length_cons]
      refine le_trans (ih (insertKeyed r p.1 p.2)) ?_
      have h := length_insertKeyed p.1 p.2 r
      by_cases hm : p.1 ∈ keysOf r
      · rw [h, if_pos hm]; omega
      · rw [h, if_neg hm]; omega

/-- When the inserted keys are pairwise distinct and disjoint from the
accumulator keys, folding keyed insertions grows the registry by exactly
the number of inserted bindings. -/
theorem length_foldl_insert_eq :
    ∀ (pairs : List (String × M)) (r : List (String × M)),
      (keysOf r ++ pairs.map Prod.fst).Nodup →
      (pairs.foldl (fun r p => insertKeyed r p.1 p.2) r).length = r.length + pairs.length := by
  intro pairs
  induction pairs with
  | nil => intro r _; simp
  | cons p ps ih =>
      intro r hnd
      simp only [List.foldl_cons, List.length_cons]
      have hdisj : p.1 ∉ keysOf r := by
        intro hmem
        rw [List.nodup_append] at hnd
        exact hnd.2.2 hmem (by simp)
      have hlen : (insertKeyed r p.1 p.2).length = r.length + 1 := by
        rw [length_insertKeyed, if_neg hdisj]
      have hkeys : keysOf (insertKeyed r p.1 p.2) = keysOf r ++ [p.1] := by
        rw [keysOf_insertKeyed, if_neg hdisj]
      have hnd2 : (keysOf (insertKeyed r p.1 p.2) ++ ps.map Prod.fst).Nodup := by
        rw [hkeys, List.append_assoc, List.singleton_append]
        simpa using hnd
      rw [ih (insertKeyed r p.1 p.2) hnd2, hlen]
      omega

/-- Retrieving identifiers succeeds only with exactly one identifier per
MSP. -/
theorem getIdentifiers_ok_length (env : Env M I) :
    ∀ msps ids, getIdentifiers env msps = .ok ids → ids.length = msps.length := by
  intro msps
  induction msps with
  | nil => intro ids h; cases h; rfl
  | cons m rest ih =>
      intro ids h
      simp only [getIdentifiers] at h
      cases hm : env.getIdentifier m with
      | error e => rw [hm] at h; cases h
      | ok id_ =>
          rw [hm] at h
          cases hr : getIdentifiers env rest with
          | error e => rw [hr] at h; cases h
          | ok ids0 =>
              rw [hr] at h
              cases h
              simp [ih ids0 hr]

/-- Setup succeeds exactly when every identifier is retrievable, and then
the registry is the keyed insertion of the identifier indexed domains. -/
theorem mspManagerSetup_ok (env : Env M I) (msps : List M) (ids : List String)
    (h : getIdentifiers env msps = .ok ids) :
    mspManagerSetup env msps = .ok ⟨buildRegistry (ids.zip msps)⟩ := by
  simp only [mspManagerSetup, h]

/-- Membership in the warnings of a concatenated effect log. -/
theorem mem_logJoin_warnings (ls : List BuildLog) (e : Err) :
    e ∈ (logJoin ls).warnings ↔ ∃ l ∈ ls, e ∈ l.warnings := by
  simp only [logJoin, List.mem_flatten, List.mem_map]
  constructor
  · rintro ⟨l, ⟨b, hb, rfl⟩, he⟩
    exact ⟨b, hb, he⟩
  · rintro ⟨b, hb, he⟩
    exact ⟨b.warnings, ⟨b, hb, rfl⟩, he⟩

/-- A warning produced while processing one TLS certificate byte string of
one loaded MSP appears among the warnings of the whole TLS registration
walk. -/
theorem warning_mem_addAllCerts (env : Env M I) (now : Int) (msps : List M) (m : M)
    (pc : Bytes) (e : Err) (hm : m ∈ msps) (hpc : pc ∈ mspTLSCerts env m)
    (he : e ∈ (addCertsToConfig env now pc).warnings) :
    e ∈ (addAllCerts env now msps).warnings := by
  simp only [addAllCerts]
  rw [mem_logJoin_warnings]
  refine ⟨logJoin ((mspTLSCerts env m).map (addCertsToConfig env now)),
    List.mem_map.mpr ⟨m, hm, rfl⟩, ?_⟩
  rw [mem_logJoin_warnings]
  exact ⟨addCertsToConfig env now pc, List.mem_map.mpr ⟨pc, hpc, rfl⟩, he⟩

/-- C1: Assembly is atomic.  For every environment and every configuration
list in which some prefix builds and the next entry fails with any error
(unsupported provider type, missing payload, malformed config, missing
name, missing root certs, or a crypto error from the collaborators),
createMSPManager propagates that first failure, wrapped as a load
failure, and returns no manager at all. -/
theorem assemble_atomic (env : Env M I) (now : Int) (l1 : List MSPConfig) (c : MSPConfig)
    (l2 : List MSPConfig) (msps1 : List M) (e : Err)
    (h1 : loadMSPs env l1 = .ok msps1) (hc : loadOneMSP env c = .error e) :
    (createMSPManager env now (l1 ++ c :: l2)).1 = .error (.loadMSPsFailed e) := by
  have hload := loadMSPs_append_firstfail env l1 msps1 c l2 e h1 hc
  have hpos : 0 < (l1 ++ c :: l2).length := by simp
  simp only [createMSPManager, if_pos hpos, hload]

/-- C1 witness: one good config, then a config with no root certificates,
then another good config; assembly fails with the middle failure and no
manager is produced. -/
theorem assemble_atomic_witness :
    (createMSPManager toyEnv 20 [⟨0, [1]⟩, ⟨0, [4]⟩, ⟨0, [5]⟩]).1 =
      .error (.loadMSPsFailed .missingRootCerts) :=
  assemble_atomic toyEnv 20 [⟨0, [1]⟩] ⟨0, [4]⟩ [⟨0, [5]⟩]
    [⟨"Org1MSP", [[1]], [], [], [[7]], []⟩] .missingRootCerts rfl rfl

/-- C2: the temporal check strictly precedes trust domain resolution.  For
every environment (hence for every possible deserialization and trust
chain behavior) and every manager, if the embedded certificate of the
serialized identity is outside its validity window at the current time,
Validate returns exactly the temporal error, that error is a temporal
validity error, and the date precheck alone already produced it. -/
theorem validate_temporal_first (env : Env M I) (now : Int) (impl : IdentityImpl M)
    (serializedID : Bytes) (sID : SerializedIdentity) (bl : PemBlock) (rest : Bytes)
    (cert : Cert) (e : Err)
    (hsid : env.protoUnmarshalSID serializedID = .ok sID)
    (hpem : env.pemDecode sID.idBytes = some (bl, rest))
    (hx : env.x509Parse bl.bytes = .ok cert)
    (hd : validateCertificateDates now cert = .error e) :
    Validate env now impl serializedID = .error e
    ∧ areCertDatesValid env now serializedID = .error e
    ∧ (e = .certNotYetValid cert.serialNumber ∨ e = .certExpired cert.serialNumber) := by
  have hcd : areCertDatesValid env now serializedID = .error e := by
    simp only [areCertDatesValid, hsid, hpem, hx, hd]
  refine ⟨by simp only [Validate, hcd], hcd, ?_⟩
  unfold validateCertificateDates at hd
  split at hd
  · cases hd; exact Or.inl rfl
  · split at hd
    · cases hd; exact Or.inr rfl
    · cases hd

/-- C2 witness: an identity whose certificate expired at time 10,
validated at time 20 against a manager that does know its trust domain
and whose deserialization and trust chain validation would succeed, is
rejected with the temporal error. -/
theorem validate_temporal_first_witness :
    Validate toyEnv 20 ⟨⟨[("Org1MSP", ⟨"Org1MSP", [[1]], [], [], [[7]], []⟩)]⟩⟩ [9] =
      .error (.certExpired 7) :=
  (validate_temporal_first toyEnv 20 ⟨⟨[("Org1MSP", ⟨"Org1MSP", [[1]], [], [], [[7]], []⟩)]⟩⟩
    [9] ⟨"Org1MSP", [7]⟩ ⟨"CERTIFICATE", [], [7]⟩ [] ⟨0, 10, 7⟩ (.certExpired 7)
    rfl rfl rfl rfl).1

/-- C3 counterexample: two configs of the supported type that decode to
trust domains with the same identifier assemble successfully into a
manager whose registry has one entry, not two: the claimed equality of
registry size and config list length fails when two configs decode to the
same identifier. -/
theorem registry_size_counterexample :
    (createMSPManager toyEnv 20 [⟨0, [1]⟩, ⟨0, [2]⟩]).1.map (fun m => m.registry.length) = .ok 1
    ∧ ([⟨0, [1]⟩, ⟨0, [2]⟩] : List MSPConfig).length = 2 := ⟨rfl, rfl⟩

/-- C3 amended: assemble either fails entirely or returns a manager whose
registry size is at most the number of configs; it equals the number of
configs when the identifiers of the built domains are pairwise distinct,
and duplicate identifiers collapse into a single registry entry, making
the registry smaller. -/
theorem registry_size_amended (env : Env M I) (now : Int) (cfgs : List MSPConfig)
    (msps : List M) (ids : List String) (mgr : MSPManager M)
    (h1 : loadMSPs env cfgs = .ok msps)
    (h2 : getIdentifiers env msps = .ok ids)
    (h3 : mspManagerSetup env msps = .ok mgr) :
    (createMSPManager env now cfgs).1 = .ok mgr
    ∧ mgr.registry.length ≤ cfgs.length
    ∧ (ids.Nodup → mgr.registry.length = cfgs.length) := by
  have hml := loadMSPs_ok_length env cfgs msps h1
  have hil := getIdentifiers_ok_length env msps ids h2
  have hmgr : mgr = ⟨buildRegistry (ids.zip msps)⟩ := by
    rw [mspManagerSetup_ok env msps ids h2] at h3
    cases h3; rfl
  subst hmgr
  have hpl : (ids.zip msps).length = cfgs.length := by
    rw [List.length_zip]; omega
  refine ⟨?_, ?_, ?_⟩
  · by_cases hc : 0 < cfgs.length
    · simp only [createMSPManager, if_pos hc, h1, mspManagerSetup_ok env msps ids h2]
    · have hcn : cfgs = [] := by
        cases cfgs with
        | nil => rfl
        | cons a l => simp at hc
      subst hcn
      simp only [loadMSPs] at h1
      cases h1
      simp only [getIdentifiers] at h2
      cases h2
      rfl
  · refine le_trans (length_foldl_insert_le (ids.zip msps) []) ?_
    simp [hpl]
  · intro hnd
    have hmap : (ids.zip msps).map Prod.fst = ids := List.map_fst_zip ids msps (by omega)
    have heq := length_foldl_insert_eq (ids.zip msps) [] (by simp [keysOf, hmap, hnd])
    simpa [buildRegistry, hpl] using heq

/-- C3 amended witness: two configs with distinct identifiers assemble
into a manager whose registry has exactly two entries. -/
theorem registry_size_amended_witness :
    (createMSPManager toyEnv 20 [⟨0, [1]⟩, ⟨0, [5]⟩]).1 =
      .ok ⟨[("Org1MSP", ⟨"Org1MSP", [[1]], [], [], [[7]], []⟩),
            ("Org5MSP", ⟨"Org5MSP", [[5]], [], [], [], []⟩)]⟩
    ∧ (MSPManager.mk [("Org1MSP", (⟨"Org1MSP", [[1]], [], [], [[7]], []⟩ : FabricMSPConfig)),
        ("Org5MSP", ⟨"Org5MSP", [[5]], [], [], [], []⟩)]).registry.length = 2 := by
  have h := registry_size_amended toyEnv 20 [⟨0, [1]⟩, ⟨0, [5]⟩]
    [⟨"Org1MSP", [[1]], [], [], [[7]], []⟩, ⟨"Org5MSP", [[5]], [], [], [], []⟩]
    ["Org1MSP", "Org5MSP"]
    ⟨[("Org1MSP", ⟨"Org1MSP", [[1]], [], [], [[7]], []⟩),
      ("Org5MSP", ⟨"Org5MSP", [[5]], [], [], [], []⟩)]⟩ rfl rfl rfl
  exact ⟨h.1, h.2.2 (by decide)⟩

/-- C4: Verify is an independent entry point without a temporal check.
For every environment, manager, message and signature, when the identity
deserializes, the result of Verify is exactly the signature verification
result of the deserialized identity, even when the embedded certificate
is outside its validity window, while Validate rejects the very same
identity with the temporal error. -/
theorem verify_no_temporal_check (env : Env M I) (now : Int) (impl : IdentityImpl M)
    (serializedID msg sig : Bytes) (id_ : I) (e : Err)
    (hdates : areCertDatesValid env now serializedID = .error e)
    (hdeser : mspManagerDeserializeIdentity env impl.mspManager serializedID = .ok id_) :
    Verify env impl serializedID msg sig = env.idVerify id_ msg sig
    ∧ Validate env now impl serializedID = .error e := by
  constructor
  · simp only [Verify, hdeser]
  · simp only [Validate, hdates]

/-- C4 witness: the identity with the expired certificate verifies a
signature successfully through Verify, with no prior Validate call, while
Validate rejects it with the temporal error. -/
theorem verify_no_temporal_check_witness :
    Verify toyEnv ⟨⟨[("Org1MSP", ⟨"Org1MSP", [[1]], [], [], [[7]], []⟩)]⟩⟩ [9] [3] [4] = .ok ()
    ∧ Validate toyEnv 20 ⟨⟨[("Org1MSP", ⟨"Org1MSP", [[1]], [], [], [[7]], []⟩)]⟩⟩ [9] =
        .error (.certExpired 7) := by
  have h := verify_no_temporal_check toyEnv 20
    ⟨⟨[("Org1MSP", ⟨"Org1MSP", [[1]], [], [], [[7]], []⟩)]⟩⟩ [9] [3] [4] 0 (.certExpired 7)
    rfl rfl
  exact ⟨h.1, h.2⟩

/-- C5: a temporal validity failure of a TLS certificate during trust
domain construction is non fatal.  Whenever loading and setup succeed and
some TLS root or intermediate certificate byte string of a loaded MSP
holds a CERTIFICATE block whose certificate parses but is outside its
validity window, assembly still succeeds with the same manager and the
temporal error is merely logged among the warnings. -/
theorem tls_temporal_nonfatal (env : Env M I) (now : Int) (cfgs : List MSPConfig)
    (msps : List M) (mgr : MSPManager M) (m : M) (pc : Bytes) (block : PemBlock)
    (rest : Bytes) (cert : Cert) (e : Err)
    (h1 : loadMSPs env cfgs = .ok msps)
    (h2 : mspManagerSetup env msps = .ok mgr)
    (hm : m ∈ msps) (hpc : pc ∈ mspTLSCerts env m)
    (hne : pc ≠ []) (hdec : env.pemDecode pc = some (block, rest))
    (ht : block.type_ = "CERTIFICATE") (hh : block.headers = [])
    (hx : env.x509Parse block.bytes = .ok cert)
    (hd : validateCertificateDates now cert = .error e) :
    (createMSPManager env now cfgs).1 = .ok mgr
    ∧ e ∈ (createMSPManager env now cfgs).2.warnings := by
  have hpos : 0 < cfgs.length := by
    have hmp : 0 < msps.length := List.length_pos.mpr (List.ne_nil_of_mem hm)
    have := loadMSPs_ok_length env cfgs msps h1
    omega
  have hcond : ¬(block.type_ ≠ "CERTIFICATE" ∨ block.headers ≠ []) := by
    simp [ht, hh]
  have hstep := addCertsToConfig_step env now pc block rest hne hdec
  rw [if_neg hcond] at hstep
  simp only [hx, hd] at hstep
  have he : e ∈ (addCertsToConfig env now pc).warnings := by
    rw [hstep]
    exact List.mem_cons_self _ _
  have hw := warning_mem_addAllCerts env now msps m pc e hm hpc he
  constructor
  · simp only [createMSPManager, if_pos hpos, h1, h2]
  · simp only [createMSPManager, if_pos hpos, h1, h2]
    exact hw

/-- C5 witness: one config whose trust domain carries a TLS root
certificate expired at time 10; assembled at time 20, construction
succeeds and the expiry is logged as a warning. -/
theorem tls_temporal_nonfatal_witness :
    (createMSPManager toyEnv 20 [⟨0, [1]⟩]).1 =
      .ok ⟨[("Org1MSP", ⟨"Org1MSP", [[1]], [], [], [[7]], []⟩)]⟩
    ∧ Err.certExpired 7 ∈ (createMSPManager toyEnv 20 [⟨0, [1]⟩]).2.warnings :=
  tls_temporal_nonfatal toyEnv 20 [⟨0, [1]⟩] [⟨"Org1MSP", [[1]], [], [], [[7]], []⟩]
    ⟨[("Org1MSP", ⟨"Org1MSP", [[1]], [], [], [[7]], []⟩)]⟩
    ⟨"Org1MSP", [[1]], [], [], [[7]], []⟩ [7] ⟨"CERTIFICATE", [], [7]⟩ [] ⟨0, 10, 7⟩
    (.certExpired 7) rfl rfl (by decide) (by decide) (by decide) rfl rfl rfl rfl rfl

/-- C6: a config whose provider type is not the single supported type
(msp.FABRIC, value 0) makes assembly of the singleton list fail with the
unsupported provider type error, and assembly of any list containing that
config fail, aborting the whole construction. -/
theorem assemble_unsupported_provider (env : Env M I) (now : Int) (c : MSPConfig)
    (l1 l2 : List MSPConfig) (h : c.type_ ≠ 0) :
    (createMSPManager env now [c]).1 = .error (.loadMSPsFailed (.mspTypeNotSupported c.type_))
    ∧ ∃ e, (createMSPManager env now (l1 ++ c :: l2)).1 = .error e := by
  constructor
  · have hload : loadMSPs env [c] = .error (.mspTypeNotSupported c.type_) := by
      simp only [loadMSPs, loadOneMSP, if_pos h]
    simp only [createMSPManager, if_pos (by simp : 0 < ([c] : List MSPConfig).length), hload]
  · obtain ⟨e, he⟩ := loadMSPs_unsupported_fails env l1 c l2 h
    refine ⟨.loadMSPsFailed e, ?_⟩
    simp only [createMSPManager,
      if_pos (by simp : 0 < (l1 ++ c :: l2).length), he]

/-- C6 witness: a config tagged with provider type 1. -/
theorem assemble_unsupported_provider_witness :
    (createMSPManager toyEnv 20 [⟨1, [1]⟩]).1 =
      .error (.loadMSPsFailed (.mspTypeNotSupported 1))
    ∧ ∃ e, (createMSPManager toyEnv 20 ([⟨0, [1]⟩] ++ ⟨1, [1]⟩ :: [])).1 = .error e :=
  assemble_unsupported_provider toyEnv 20 ⟨1, [1]⟩ [⟨0, [1]⟩] [] (by decide)

/-- C7: a config of the supported provider type with a nonempty payload
that decodes to a fabric config with a nonempty name but an empty set of
root certificates makes assembly fail with the missing root certs
error. -/
theorem assemble_missing_root_certs (env : Env M I) (now : Int) (c : MSPConfig)
    (fc : FabricMSPConfig)
    (ht : c.type_ = 0) (hp : c.config.length ≠ 0)
    (hu : env.protoUnmarshalFabric c.config = .ok fc)
    (hn : fc.name ≠ "") (hr : fc.rootCerts = []) :
    (createMSPManager env now [c]).1 = .error (.loadMSPsFailed .missingRootCerts) := by
  have hone : loadOneMSP env c = .error .missingRootCerts := by
    have hfc : getFabricConfig env c = .error .missingRootCerts := by
      simp only [getFabricConfig, hu, if_neg hn, hr]
      simp
    simp only [loadOneMSP, ht, hfc]
    simp [hp]
  have hload : loadMSPs env [c] = .error .missingRootCerts := by
    simp only [loadMSPs, hone]
  simp only [createMSPManager, if_pos (by simp : 0 < ([c] : List MSPConfig).length), hload]

/-- C7 witness: payload 4 decodes to a named config with no root
certificates. -/
theorem assemble_missing_root_certs_witness :
    (createMSPManager toyEnv 20 [⟨0, [4]⟩]).1 = .error (.loadMSPsFailed .missingRootCerts) :=
  assemble_missing_root_certs toyEnv 20 ⟨0, [4]⟩ ⟨"Org4MSP", [], [], [], [], []⟩
    rfl (by decide) rfl (by decide) rfl

/-- C8: assembling from an empty config list is not an error: the result
is a valid manager with an empty registry and no side effects. -/
theorem assemble_empty_ok (env : Env M I) (now : Int) :
    createMSPManager env now ([] : List MSPConfig) = (.ok MSPManager.empty, BuildLog.empty)
    ∧ (MSPManager.empty : MSPManager M).registry = [] := ⟨rfl, rfl⟩

/-- C9: the TLS trust pool side channel is populated only after the whole
assembly succeeds: on any failing assembly no certificate at all has been
forwarded to the pool and no warning has been logged, not even for
domains built before the failure. -/
theorem tls_pool_only_after_success (env : Env M I) (now : Int) (cfgs : List MSPConfig)
    (e : Err) (h : (createMSPManager env now cfgs).1 = .error e) :
    (createMSPManager env now cfgs).2.pool = []
    ∧ (createMSPManager env now cfgs).2.warnings = [] := by
  by_cases hp : 0 < cfgs.length
  · cases hl : loadMSPs env cfgs with
    | error e0 => simp [createMSPManager, if_pos hp, hl, BuildLog.empty]
    | ok msps =>
        cases hs : mspManagerSetup env msps with
        | error e0 => simp [createMSPManager, if_pos hp, hl, hs, BuildLog.empty]
        | ok mgr =>
            simp only [createMSPManager, if_pos hp, hl, hs] at h
            simp at h
  · simp only [createMSPManager, if_neg hp] at h
    simp at h

/-- C9 witness: assembly over a good config followed by a bad one fails
and forwards nothing to the pool. -/
theorem tls_pool_only_after_success_witness :
    (createMSPManager toyEnv 20 [⟨0, [1]⟩, ⟨0, [4]⟩]).2.pool = []
    ∧ (createMSPManager toyEnv 20 [⟨0, [1]⟩, ⟨0, [4]⟩]).2.warnings = [] :=
  tls_pool_only_after_success toyEnv 20 [⟨0, [1]⟩, ⟨0, [4]⟩]
    (.loadMSPsFailed .missingRootCerts) rfl

/-- C10: a TLS certificate that fails the temporal validity check is
still forwarded to the pool with the failure only logged, while a PEM
block that is not of type CERTIFICATE or has headers, and a block whose
bytes fail X.509 parsing, are skipped silently: no registration and no
warning. -/
theorem tls_forwarded_despite_dates (env : Env M I) (now : Int) (pemCerts : Bytes)
    (block : PemBlock) (rest : Bytes)
    (hne : pemCerts ≠ []) (hdec : env.pemDecode pemCerts = some (block, rest)) :
    (∀ cert e, block.type_ = "CERTIFICATE" → block.headers = [] →
      env.x509Parse block.bytes = .ok cert → validateCertificateDates now cert = .error e →
      addCertsToConfig env now pemCerts =
        ⟨cert :: (addCertsToConfig env now rest).pool,
         e :: (addCertsToConfig env now rest).warnings⟩)
    ∧ (block.type_ ≠ "CERTIFICATE" ∨ block.headers ≠ [] →
      addCertsToConfig env now pemCerts = addCertsToConfig env now rest)
    ∧ (∀ e, block.type_ = "CERTIFICATE" → block.headers = [] →
      env.x509Parse block.bytes = .error e →
      addCertsToConfig env now pemCerts = addCertsToConfig env now rest) := by
  have hstep := addCertsToConfig_step env now pemCerts block rest hne hdec
  refine ⟨?_, ?_, ?_⟩
  · intro cert e ht hh hx hd
    rw [hstep, if_neg (by simp [ht, hh])]
    simp only [hx, hd]
  · intro hcond
    rw [hstep, if_pos hcond]
  · intro e ht hh hx
    rw [hstep, if_neg (by simp [ht, hh])]
    simp only [hx]

/-- C10 witness: the byte string holding one CERTIFICATE block whose
certificate expired at time 10, processed at time 20, is registered in
the pool and the expiry warning logged. -/
theorem tls_forwarded_despite_dates_witness :
    addCertsToConfig toyEnv 20 [7] = ⟨[⟨0, 10, 7⟩], [.certExpired 7]⟩ := by
  have h := (tls_forwarded_despite_dates toyEnv 20 [7] ⟨"CERTIFICATE", [], [7]⟩ []
    (by decide) rfl).1 ⟨0, 10, 7⟩ (.certExpired 7) rfl rfl rfl rfl
  rw [h, addCertsToConfig_nil]
  rfl

end Membership
